import Mathlib

/-!
Verification of the static file server (vicanso/static). The development
is a shallow embedding of the request-serving pipeline: compression
negotiation, static-file serving with its configuration flags, the
freshness (conditional request) evaluator, the ETag middleware and the
two root-page handlers. The middleware implementations live in the elton
dependency and are not part of this repository, so they are modelled
from the specification text; each such definition carries a doc comment
saying so. Configuration values and the handler bodies are taken
directly from main.go and the unnamed source variants.
-/

namespace StaticSrv

/-- A stored file: its bytes (kept as a string) and its modification time. -/
structure FileInfo where
  bytes : String
  modTime : Nat
deriving DecidableEq

/-- The content encodings the server can negotiate. -/
inductive Encoding where
  | identity
  | gzip
  | br
  | zstd
deriving DecidableEq

/-- Does the first character list start with the second one. -/
def startsWithChars : List Char → List Char → Bool
  | _, [] => true
  | [], _ :: _ => false
  | a :: as, b :: bs => a == b && startsWithChars as bs

/-- Modelled from the spec: single-step match of the regexp subset used by
the configuration values (CMP_CONTENT_TYPE, NoCacheRegexp): a pattern is
a character sequence in which a dot matches any character; this checks a
match starting at the head of the subject. -/
def patMatchHere : List Char → List Char → Bool
  | [], _ => true
  | _ :: _, [] => false
  | p :: ps, c :: cs => (p == '.' || p == c) && patMatchHere ps cs

/-- Unanchored search for a dot-or-literal pattern. -/
def patMatch (pat : List Char) : List Char → Bool
  | [] => patMatchHere pat []
  | c :: cs => patMatchHere pat (c :: cs) || patMatch pat cs

/-- An alternation regexp: match when any alternative pattern matches. -/
def regexpAny (pats : List (List Char)) (s : List Char) : Bool :=
  pats.any (fun p => patMatch p s)

/-- The compression configuration assembled in main.go: a minimum body
length, an optional content-type allow filter (the compiled regexp,
modelled as its list of alternatives) and the fixed preference order of
the registered compressors. -/
structure CompressConfig where
  minLength : Nat
  filter : Option (List (List Char))
  preference : List Encoding
deriving DecidableEq

/-- Content-type check: with no filter configured every content type
passes, otherwise the content type must match the filter regexp. -/
def matchesFilter : Option (List (List Char)) → List Char → Bool
  | none, _ => true
  | some pats, ct => regexpAny pats ct

/-- Modelled from the spec: the compression negotiator of section 4.5
(implemented by the elton compress middleware, which is not under src/).
Skip compression when the body is shorter than the configured minimum
length or when the content type fails the allow filter; otherwise pick
the first encoding of the fixed preference order that the client
declared acceptable, and identity when none is. -/
def negotiate (cfg : CompressConfig) (accept : List Encoding) (len : Nat)
    (ct : List Char) : Encoding :=
  if len < cfg.minLength then Encoding.identity
  else if matchesFilter cfg.filter ct then
    match cfg.preference.find? (fun e => decide (e ∈ accept)) with
    | some e => e
    | none => Encoding.identity
  else Encoding.identity

/-- The preference order registered in main.go:
NewCompressConfig(BrCompressor, GzipCompressor), so brotli before gzip. -/
def mainGoPreference : List Encoding := [Encoding.br, Encoding.gzip]

/-- The compress configuration main.go builds from the environment. -/
def mainGoCompressConfig (minLength : Nat)
    (filter : Option (List (List Char))) : CompressConfig :=
  { minLength := minLength, filter := filter, preference := mainGoPreference }

/-- strconv.Atoi applied to an optional environment value: an absent or
unparsable value yields zero, since main.go discards the parse error. -/
def atoiOrZero : Option String → Int
  | none => 0
  | some s => (s.toInt?).getD 0

/-- main.go installs the compress middleware only when the configured
compression level is nonzero (the if compressLevel != 0 guard). -/
def installCompress (compressLevel : Int) (cfg : CompressConfig) :
    Option CompressConfig :=
  if compressLevel = 0 then none else some cfg

/-- The encoding a response ends up with: identity when no compress
middleware is installed, otherwise whatever the negotiator picks. -/
def pipelineEncoding (compressLevel : Int) (cfg : CompressConfig)
    (accept : List Encoding) (len : Nat) (ct : List Char) : Encoding :=
  match installCompress compressLevel cfg with
  | none => Encoding.identity
  | some c => negotiate c accept len ct

/-- The default content-type filter of the deployment
(text|javascript|json|wasm|font from the Dockerfile). -/
def defaultFilter : List (List Char) :=
  ["text", "javascript", "json", "wasm", "font"].map String.toList

/-- The content type used in concrete checks. -/
def ctHtml : List Char := String.toList "text/html"

/-- C2: the negotiator applies a compressed encoding only when the body
length is at least the configured minimum and the content type passes
the configured filter; any body shorter than the minimum is served with
identity encoding for every Accept-Encoding value. -/
theorem c2_min_length_and_filter (cfg : CompressConfig)
    (accept : List Encoding) (len : Nat) (ct : List Char) :
    (negotiate cfg accept len ct ≠ Encoding.identity →
      cfg.minLength ≤ len ∧ matchesFilter cfg.filter ct = true) ∧
    (len < cfg.minLength →
      negotiate cfg accept len ct = Encoding.identity) := by
  constructor
  · intro h
    by_cases h1 : len < cfg.minLength
    · exfalso
      apply h
      simp [negotiate, h1]
    · refine ⟨Nat.not_lt.mp h1, ?_⟩
      by_cases h2 : matchesFilter cfg.filter ct = true
      · exact h2
      · exfalso
        apply h
        simp [negotiate, h1, h2]
  · intro h1
    simp [negotiate, h1]

/-- C2 witness: at the deployment configuration, a 1000-byte text body is
compressible (so length and filter checks passed), and a 10-byte body is
served with identity encoding. -/
theorem c2_witness :
    ((mainGoCompressConfig 256 (some defaultFilter)).minLength ≤ 1000 ∧
      matchesFilter (mainGoCompressConfig 256 (some defaultFilter)).filter
        ctHtml = true) ∧
    negotiate (mainGoCompressConfig 256 (some defaultFilter))
      [Encoding.gzip] 10 ctHtml = Encoding.identity :=
  ⟨(c2_min_length_and_filter (mainGoCompressConfig 256 (some defaultFilter))
      [Encoding.br] 1000 ctHtml).1 (by decide),
   (c2_min_length_and_filter (mainGoCompressConfig 256 (some defaultFilter))
      [Encoding.gzip] 10 ctHtml).2 (by decide)⟩

/-- C3: for a body at or above the minimum length, a client accepting only
gzip never gets brotli or zstd; once length and content type pass, the
negotiator picks the first encoding of the preference order the client
accepts (identity when none); with the main.go order (brotli before
gzip) a gzip-only client gets exactly gzip when the filter passes. -/
theorem c3_gzip_only (cfg : CompressConfig) (len : Nat) (ct : List Char)
    (h : cfg.minLength ≤ len) :
    (negotiate cfg [Encoding.gzip] len ct ≠ Encoding.br ∧
      negotiate cfg [Encoding.gzip] len ct ≠ Encoding.zstd) ∧
    (matchesFilter cfg.filter ct = true →
      ∀ accept : List Encoding,
        negotiate cfg accept len ct =
          (cfg.preference.find?
            (fun e => decide (e ∈ accept))).getD Encoding.identity) ∧
    (∀ m : Nat, ∀ f : Option (List (List Char)), m ≤ len →
      negotiate (mainGoCompressConfig m f) [Encoding.gzip] len ct =
        if matchesFilter f ct then Encoding.gzip else Encoding.identity) := by
  have hlt : ¬ len < cfg.minLength := Nat.not_lt.mpr h
  refine ⟨?_, ?_, ?_⟩
  · by_cases hf : matchesFilter cfg.filter ct = true
    · cases hfind : cfg.preference.find?
        (fun e => decide (e ∈ [Encoding.gzip])) with
      | none =>
        unfold negotiate
        rw [if_neg hlt, if_pos hf, hfind]
        exact ⟨by decide, by decide⟩
      | some a =>
        have ha := List.find?_some hfind
        have ha2 : a = Encoding.gzip := by simpa using ha
        subst ha2
        unfold negotiate
        rw [if_neg hlt, if_pos hf, hfind]
        exact ⟨by decide, by decide⟩
    · simp [negotiate, hlt, hf]
  · intro hf accept
    cases hfind : cfg.preference.find? (fun e => decide (e ∈ accept)) with
    | none => simp [negotiate, hlt, hf, hfind]
    | some a => simp [negotiate, hlt, hf, hfind]
  · intro m f hm
    have hlt2 : ¬ len < m := Nat.not_lt.mpr hm
    by_cases hf : matchesFilter f ct = true
    · simp [negotiate, mainGoCompressConfig, mainGoPreference, hlt2, hf,
        List.find?]
    · simp [negotiate, mainGoCompressConfig, hlt2, hf]

/-- C3 witness: at the deployment configuration with a 1000-byte text
body, a gzip-only client gets neither brotli nor zstd; a client that
accepts gzip and brotli gets the first preferred acceptable encoding;
and the gzip-only client gets exactly gzip. -/
theorem c3_witness :
    (negotiate (mainGoCompressConfig 256 (some defaultFilter))
        [Encoding.gzip] 1000 ctHtml ≠ Encoding.br ∧
      negotiate (mainGoCompressConfig 256 (some defaultFilter))
        [Encoding.gzip] 1000 ctHtml ≠ Encoding.zstd) ∧
    (negotiate (mainGoCompressConfig 256 (some defaultFilter))
        [Encoding.gzip, Encoding.br] 1000 ctHtml =
      ((mainGoCompressConfig 256 (some defaultFilter)).preference.find?
        (fun e => decide (e ∈ [Encoding.gzip, Encoding.br]))).getD
          Encoding.identity) ∧
    (negotiate (mainGoCompressConfig 256 (some defaultFilter))
        [Encoding.gzip] 1000 ctHtml =
      if matchesFilter (some defaultFilter) ctHtml then Encoding.gzip
      else Encoding.identity) :=
  ⟨(c3_gzip_only (mainGoCompressConfig 256 (some defaultFilter)) 1000 ctHtml
      (by decide)).1,
   (c3_gzip_only (mainGoCompressConfig 256 (some defaultFilter)) 1000 ctHtml
      (by decide)).2.1 (by decide) [Encoding.gzip, Encoding.br],
   (c3_gzip_only (mainGoCompressConfig 256 (some defaultFilter)) 1000 ctHtml
      (by decide)).2.2 256 (some defaultFilter) (by decide)⟩

/-- C10: when the compression level is absent or parses to zero, the
compress middleware is not installed and every response keeps the
identity encoding, for every accepted-encodings list, body length and
content type. -/
theorem c10_no_compress_installed (env : Option String)
    (cfg : CompressConfig) (h : atoiOrZero env = 0) :
    installCompress (atoiOrZero env) cfg = none ∧
    ∀ accept len ct,
      pipelineEncoding (atoiOrZero env) cfg accept len ct =
        Encoding.identity := by
  rw [h]
  constructor
  · simp [installCompress]
  · intro accept len ct
    simp [pipelineEncoding, installCompress]

/-- C10 witness: with the environment value absent, the middleware is not
installed and a large brotli-accepting text request still gets identity. -/
theorem c10_witness :
    installCompress (atoiOrZero none)
      (mainGoCompressConfig 1024 (some defaultFilter)) = none ∧
    pipelineEncoding (atoiOrZero none)
      (mainGoCompressConfig 1024 (some defaultFilter))
      [Encoding.br] 5000 ctHtml = Encoding.identity :=
  ⟨(c10_no_compress_installed none
      (mainGoCompressConfig 1024 (some defaultFilter)) rfl).1,
   (c10_no_compress_installed none
      (mainGoCompressConfig 1024 (some defaultFilter)) rfl).2
      [Encoding.br] 5000 ctHtml⟩

/-- The StaticServeConfig of the elton static-serve middleware, with the
fields the main files set (Path, MaxAge, SMaxAge in seconds,
DenyQueryString, DisableLastModified, EnableStrongETag, DenyDot,
NoCacheRegexp, IndexFile). -/
structure StaticServeConfig where
  path : String
  maxAge : Nat
  sMaxAge : Nat
  denyQueryString : Bool := false
  disableLastModified : Bool := false
  enableStrongETag : Bool := false
  denyDot : Bool := false
  noCacheRegexp : Option (List (List Char)) := none
  indexFile : Option String := none

/-- The conditional headers of an incoming request. -/
structure HttpRequest where
  ifNoneMatch : Option String := none
  ifModifiedSince : Option Nat := none
deriving DecidableEq

/-- A response as the pipeline produces it: status, body and the headers
the claims talk about, plus a flag recording whether the storage backend
was consulted. -/
structure StaticResult where
  status : Nat
  body : String
  etag : Option String := none
  lastModified : Option Nat := none
  cacheControl : Option String := none
  contentType : Option String := none
  backendRead : Bool := false
deriving DecidableEq

/-- Modelled from the spec: the strong validator is a stable fingerprint
identifying the exact byte content; it is modelled as a quoted
length-plus-content token, which changes exactly when the bytes change. -/
def strongETag (b : String) : String :=
  "\"" ++ toString (String.length b) ++ "-" ++ b ++ "\""

/-- Modelled from the spec: the weak validator derived from a backend
stat, a size and modification-time composite. -/
def weakETag (fi : FileInfo) : String :=
  "W/\"" ++ toString (String.length fi.bytes) ++ "-" ++
    toString fi.modTime ++ "\""

/-- The validator the static-serve middleware attaches: strong when
EnableStrongETag is set, otherwise the stat-derived weak one. -/
def computeETag (strong : Bool) (fi : FileInfo) : String :=
  if strong then strongETag fi.bytes else weakETag fi

/-- A path segment is hidden when it starts with a dot. -/
def isHiddenSegment (s : String) : Bool :=
  match String.toList s with
  | [] => false
  | c :: _ => c == '.'

/-- The request path rebuilt from its segments. -/
def urlPath (segments : List String) : String :=
  "/" ++ String.intercalate "/" segments

/-- Modelled from the spec: the ObjectKey is the normalized path with the
query string stripped per configuration, so with DenyQueryString set the
query is dropped during key normalization. -/
def stripQueryString (cfg : StaticServeConfig) (query : Option String) :
    Option String :=
  if cfg.denyQueryString then none else query

/-- The object key a request resolves to: the configured root joined with
the request path, with the query kept only when not stripped. -/
def requestObjectKey (cfg : StaticServeConfig) (segments : List String)
    (query : Option String) : String :=
  match stripQueryString cfg query with
  | none => cfg.path ++ urlPath segments
  | some q => cfg.path ++ urlPath segments ++ "?" ++ q

/-- The long-lived Cache-Control value built from MaxAge and SMaxAge. -/
def longMaxAge (cfg : StaticServeConfig) : String :=
  "public, max-age=" ++ toString cfg.maxAge ++ ", s-maxage=" ++
    toString cfg.sMaxAge

/-- Modelled from the spec: HTML and other paths matching NoCacheRegexp
are marked never cacheable, everything else gets the long max-age
directive. -/
def cacheControlFor (cfg : StaticServeConfig) (p : String) : String :=
  match cfg.noCacheRegexp with
  | none => longMaxAge cfg
  | some pats =>
    if regexpAny pats (String.toList p) then "no-cache" else longMaxAge cfg

/-- A client error response: a 4xx status with no object content. -/
def clientError (status : Nat) : StaticResult :=
  { status := status, body := "" }

/-- Modelled from the spec: the static-serve middleware. It rejects
denied hidden segments with a client error before consulting the
backend, resolves the object key, answers 404 when the backend misses,
and otherwise serves the bytes with the validator, the optional
Last-Modified value and the Cache-Control directive. -/
def staticServe (cfg : StaticServeConfig) (fs : String → Option FileInfo)
    (segments : List String) (query : Option String) : StaticResult :=
  if (cfg.denyDot && segments.any isHiddenSegment) = true then
    clientError 400
  else
    match fs (requestObjectKey cfg segments query) with
    | none => { status := 404, body := "", backendRead := true }
    | some fi =>
      { status := 200,
        body := fi.bytes,
        etag := some (computeETag cfg.enableStrongETag fi),
        lastModified :=
          if cfg.disableLastModified then none else some fi.modTime,
        cacheControl := some (cacheControlFor cfg (urlPath segments)),
        contentType := none,
        backendRead := true }

/-- The wildcard-route configuration of main.go. -/
def mainGoStatic (p : String) : StaticServeConfig :=
  { path := p, maxAge := 31536000, sMaxAge := 3600,
    denyQueryString := true, disableLastModified := true,
    enableStrongETag := true }

/-- The NoCacheRegexp pattern of the cache variant, the regexp .html. -/
def dotHtmlPat : List Char := String.toList ".html"

/-- The wildcard-route configuration of the cache variant (part_000). -/
def part000Static (p : String) : StaticServeConfig :=
  { path := p, maxAge := 31536000, sMaxAge := 3600,
    denyDot := true, enableStrongETag := true,
    noCacheRegexp := some [dotHtmlPat], indexFile := some "index.html" }

/-- A concrete backend with a text asset, an index page and an HTML page. -/
def fsMain : String → Option FileInfo := fun k =>
  if k == "/s/a.txt" then some { bytes := "hello", modTime := 7 }
  else if k == "/s/index.html" then
    some { bytes := "<html>hi</html>", modTime := 3 }
  else if k == "/s/page.html" then some { bytes := "<p>page</p>", modTime := 4 }
  else none

/-- A backend holding nothing. -/
def fsEmpty : String → Option FileInfo := fun _ => none

/-- C7: with DenyDot set, every request whose path contains a hidden
(dot-prefixed) segment is answered with a 400 client error, with no
object content and without consulting the backend. -/
theorem c7_deny_dot_rejected (cfg : StaticServeConfig)
    (fs : String → Option FileInfo) (segs : List String) (q : Option String)
    (hd : cfg.denyDot = true) (hh : segs.any isHiddenSegment = true) :
    (staticServe cfg fs segs q).status = 400 ∧
    (staticServe cfg fs segs q).body = "" ∧
    (staticServe cfg fs segs q).backendRead = false := by
  simp [staticServe, hd, hh, clientError]

/-- C7 witness: under the cache-variant configuration, the hidden path
/.env/x is rejected with 400, empty body and no backend read. -/
theorem c7_witness :
    (staticServe (part000Static "/s") fsMain [".env", "x"] none).status =
      400 ∧
    (staticServe (part000Static "/s") fsMain [".env", "x"] none).body = "" ∧
    (staticServe (part000Static "/s") fsMain [".env", "x"] none).backendRead =
      false :=
  c7_deny_dot_rejected (part000Static "/s") fsMain [".env", "x"] none
    (by decide) (by decide)

/-- C8: with DenyQueryString configured, a request carrying a query string
normalizes to the same object key as the query-less request and the
whole response is identical to the query-less one. -/
theorem c8_query_stripped (cfg : StaticServeConfig)
    (fs : String → Option FileInfo) (segs : List String) (q : String)
    (h : cfg.denyQueryString = true) :
    requestObjectKey cfg segs (some q) = requestObjectKey cfg segs none ∧
    staticServe cfg fs segs (some q) = staticServe cfg fs segs none := by
  have hk : requestObjectKey cfg segs (some q) =
      requestObjectKey cfg segs none := by
    simp [requestObjectKey, stripQueryString, h]
  refine ⟨hk, ?_⟩
  unfold staticServe
  rw [hk]

/-- C8 witness: under the main.go configuration, the request for
/a.txt?v=1 resolves to the same key and the same response as /a.txt. -/
theorem c8_witness :
    requestObjectKey (mainGoStatic "/s") ["a.txt"] (some "v=1") =
      requestObjectKey (mainGoStatic "/s") ["a.txt"] none ∧
    staticServe (mainGoStatic "/s") fsMain ["a.txt"] (some "v=1") =
      staticServe (mainGoStatic "/s") fsMain ["a.txt"] none :=
  c8_query_stripped (mainGoStatic "/s") fsMain ["a.txt"] "v=1" (by decide)

/-- C5 counterexample: under the main.go configuration (which sets
DisableLastModified), the asset /a.txt is served with status 200 and no
Last-Modified header, refuting the claim that every 200 static response
carries both validators. -/
theorem c5_counterexample :
    (staticServe (mainGoStatic "/s") fsMain ["a.txt"] none).status = 200 ∧
    (staticServe (mainGoStatic "/s") fsMain ["a.txt"] none).lastModified =
      none := by
  decide

/-- C5 amended: every 200 response of the wildcard route carries an ETag;
it carries Last-Modified exactly when DisableLastModified is unset (so
both headers under the part_000 configuration, only the ETag under the
main.go one). -/
theorem c5_amended_etag_last_modified (cfg : StaticServeConfig)
    (fs : String → Option FileInfo) (segs : List String) (q : Option String)
    (h : (staticServe cfg fs segs q).status = 200) :
    (staticServe cfg fs segs q).etag.isSome = true ∧
    (staticServe cfg fs segs q).lastModified.isSome =
      !cfg.disableLastModified := by
  by_cases hd : (cfg.denyDot && segs.any isHiddenSegment) = true
  · exfalso
    simp [staticServe, hd, clientError] at h
  · cases hfs : fs (requestObjectKey cfg segs q) with
    | none =>
      exfalso
      simp [staticServe, hd, hfs] at h
    | some fi =>
      refine ⟨by simp [staticServe, hd, hfs], ?_⟩
      cases hdl : cfg.disableLastModified <;>
        simp [staticServe, hd, hfs, hdl]

/-- C5 witness: under the part_000 configuration (Last-Modified enabled)
the asset /a.txt is served with an ETag and with Last-Modified. -/
theorem c5_witness :
    (staticServe (part000Static "/s") fsMain ["a.txt"] none).etag.isSome =
      true ∧
    (staticServe (part000Static "/s") fsMain ["a.txt"] none).lastModified.isSome =
      !(part000Static "/s").disableLastModified :=
  c5_amended_etag_last_modified (part000Static "/s") fsMain ["a.txt"] none
    (by decide)

/-- Modelled from the spec: the freshness decision procedure of section
4.4 (the elton fresh middleware, not under src/). When the request
carries If-None-Match it governs: the response is fresh exactly when it
equals the current validator. Otherwise an If-Modified-Since timestamp
at or after the modification time makes the response fresh. -/
def freshCheck (req : HttpRequest) (etag : Option String)
    (lm : Option Nat) : Bool :=
  match req.ifNoneMatch with
  | some inm =>
    match etag with
    | some e => inm == e
    | none => false
  | none =>
    match req.ifModifiedSince, lm with
    | some ims, some l => decide (l ≤ ims)
    | _, _ => false

/-- Modelled from the spec: a fresh 200 response is rewritten to a 304
with an empty body; everything else passes through untouched. -/
def applyFresh (req : HttpRequest) (r : StaticResult) : StaticResult :=
  if (r.status == 200 && freshCheck req r.etag r.lastModified) = true then
    { r with status := 304, body := "" }
  else r

/-- Modelled from the spec: the default ETag middleware attaches a strong
validator computed from the body to 200 responses that lack one. -/
def etagMiddleware (r : StaticResult) : StaticResult :=
  if (r.status == 200 && r.etag.isNone) = true then
    { r with etag := some (strongETag r.body) }
  else r

/-- The wildcard pipeline as main.go wires it: static serving, then the
ETag middleware, then the freshness evaluation on the response. -/
def serveStatic (cfg : StaticServeConfig) (fs : String → Option FileInfo)
    (segments : List String) (query : Option String)
    (req : HttpRequest) : StaticResult :=
  applyFresh req (etagMiddleware (staticServe cfg fs segments query))

/-- C1: for a static asset served with status 200 and validator e, a GET
whose If-None-Match equals e exactly yields a 304 with empty body, while
a GET whose If-None-Match differs from e yields the full untouched
response. -/
theorem c1_if_none_match_304 (cfg : StaticServeConfig)
    (fs : String → Option FileInfo) (segs : List String) (q : Option String)
    (req : HttpRequest) (e : String)
    (h200 : (staticServe cfg fs segs q).status = 200)
    (hetag : (staticServe cfg fs segs q).etag = some e) :
    (req.ifNoneMatch = some e →
      (serveStatic cfg fs segs q req).status = 304 ∧
      (serveStatic cfg fs segs q req).body = "") ∧
    (∀ v, req.ifNoneMatch = some v → v ≠ e →
      serveStatic cfg fs segs q req = staticServe cfg fs segs q) := by
  have hmid : etagMiddleware (staticServe cfg fs segs q) =
      staticServe cfg fs segs q := by
    unfold etagMiddleware
    rw [hetag]
    simp
  constructor
  · intro hin
    simp [serveStatic, hmid, applyFresh, freshCheck, hin, hetag, h200]
  · intro v hv hne
    simp [serveStatic, hmid, applyFresh, freshCheck, hv, hetag, hne]

/-- The matching conditional request used in concrete checks: the strong
validator of the five-byte body hello. -/
def reqMatch : HttpRequest := { ifNoneMatch := some "\"5-hello\"" }

/-- A conditional request carrying a stale validator. -/
def reqStale : HttpRequest := { ifNoneMatch := some "zzz" }

/-- C1 witness: under the cache-variant configuration, a request for
/a.txt with the matching validator gets a 304 with empty body, and one
with a different validator gets the full response. -/
theorem c1_witness :
    ((serveStatic (part000Static "/s") fsMain ["a.txt"] none reqMatch).status =
        304 ∧
      (serveStatic (part000Static "/s") fsMain ["a.txt"] none reqMatch).body =
        "") ∧
    serveStatic (part000Static "/s") fsMain ["a.txt"] none reqStale =
      staticServe (part000Static "/s") fsMain ["a.txt"] none :=
  ⟨(c1_if_none_match_304 (part000Static "/s") fsMain ["a.txt"] none reqMatch
      "\"5-hello\"" (by decide) (by decide)).1 rfl,
   (c1_if_none_match_304 (part000Static "/s") fsMain ["a.txt"] none reqStale
      "\"5-hello\"" (by decide) (by decide)).2 "zzz" rfl (by decide)⟩

/-- Reading the configured index document under the static root, as both
root handlers do through sf.NewReader(staticPath + "/index.html"). -/
def rootRead (staticPath : String) (fs : String → Option FileInfo) :
    Option FileInfo :=
  fs (staticPath ++ "/index.html")

/-- The GET / handler of the cache variant (part_000): read the index
file, propagate a read failure, otherwise mark the response no-cache,
set the HTML content type and serve the bytes. -/
def part000Root (staticPath : String) (fs : String → Option FileInfo) :
    Except String StaticResult :=
  match rootRead staticPath fs with
  | none => Except.error "index read failed"
  | some fi =>
    Except.ok { status := 200, body := fi.bytes,
                cacheControl := some "no-cache",
                contentType := some "text/html", backendRead := true }

/-- The GET / handler of main.go: identical, except that it never touches
Cache-Control. -/
def mainGoRoot (staticPath : String) (fs : String → Option FileInfo) :
    Except String StaticResult :=
  match rootRead staticPath fs with
  | none => Except.error "index read failed"
  | some fi =>
    Except.ok { status := 200, body := fi.bytes,
                cacheControl := none,
                contentType := some "text/html", backendRead := true }

/-- Any 200 wildcard response carries the Cache-Control value computed
for its path by cacheControlFor. -/
theorem staticServe_status200_cacheControl (cfg : StaticServeConfig)
    (fs : String → Option FileInfo) (segs : List String) (q : Option String)
    (h : (staticServe cfg fs segs q).status = 200) :
    (staticServe cfg fs segs q).cacheControl =
      some (cacheControlFor cfg (urlPath segs)) := by
  by_cases hd : (cfg.denyDot && segs.any isHiddenSegment) = true
  · exfalso
    simp [staticServe, hd, clientError] at h
  · cases hfs : fs (requestObjectKey cfg segs q) with
    | none =>
      exfalso
      simp [staticServe, hd, hfs] at h
    | some fi => simp [staticServe, hd, hfs]

/-- C6 counterexample: the main.go root handler serves the index HTML
page with status 200 and no Cache-Control header at all, refuting the
claim that every HTML response carries a never-cacheable directive. -/
theorem c6_counterexample :
    mainGoRoot "/s" fsMain =
      Except.ok { status := 200, body := "<html>hi</html>",
                  cacheControl := none,
                  contentType := some "text/html", backendRead := true } := by
  rfl

/-- C6 amended: in the cache variant (part_000) the root handler marks
its HTML response no-cache, a 200 wildcard response is no-cache exactly
when the path matches the NoCacheRegexp .html and carries the long
max-age directive otherwise, and the freshness step never changes
Cache-Control; the main.go root handler, by contrast, sets no
Cache-Control at all. -/
theorem c6_amended_no_cache (p : String) (fs : String → Option FileInfo)
    (segs : List String) (q : Option String) (req : HttpRequest)
    (r : StaticResult) :
    (∀ fi, rootRead p fs = some fi →
      part000Root p fs =
        Except.ok { status := 200, body := fi.bytes,
                    cacheControl := some "no-cache",
                    contentType := some "text/html", backendRead := true }) ∧
    ((staticServe (part000Static p) fs segs q).status = 200 →
      (staticServe (part000Static p) fs segs q).cacheControl =
        some (if regexpAny [dotHtmlPat] (String.toList (urlPath segs))
          then "no-cache" else longMaxAge (part000Static p))) ∧
    ((applyFresh req r).cacheControl = r.cacheControl) ∧
    (∀ fi, rootRead p fs = some fi →
      mainGoRoot p fs =
        Except.ok { status := 200, body := fi.bytes,
                    cacheControl := none,
                    contentType := some "text/html",
                    backendRead := true }) := by
  refine ⟨?_, ?_, ?_, ?_⟩
  · intro fi hfi
    unfold part000Root
    rw [hfi]
  · intro h
    rw [staticServe_status200_cacheControl (part000Static p) fs segs q h]
    simp [cacheControlFor, part000Static]
  · unfold applyFresh
    by_cases hc : (r.status == 200 && freshCheck req r.etag r.lastModified) =
        true
    · rw [if_pos hc]
    · rw [if_neg hc]
  · intro fi hfi
    unfold mainGoRoot
    rw [hfi]

/-- C6 witness: with the index page and an HTML page present, the cache
variant marks the root response and the /page.html response no-cache,
freshness keeps Cache-Control intact, and the main.go root response has
none. -/
theorem c6_witness :
    (part000Root "/s" fsMain =
      Except.ok { status := 200, body := "<html>hi</html>",
                  cacheControl := some "no-cache",
                  contentType := some "text/html", backendRead := true }) ∧
    ((staticServe (part000Static "/s") fsMain ["page.html"] none).cacheControl =
      some (if regexpAny [dotHtmlPat] (String.toList (urlPath ["page.html"]))
        then "no-cache" else longMaxAge (part000Static "/s"))) ∧
    ((applyFresh reqStale
        { status := 200, body := "x", cacheControl := some "no-cache" }).cacheControl =
      some "no-cache") ∧
    (mainGoRoot "/s" fsMain =
      Except.ok { status := 200, body := "<html>hi</html>",
                  cacheControl := none,
                  contentType := some "text/html", backendRead := true }) :=
  ⟨(c6_amended_no_cache "/s" fsMain ["page.html"] none reqStale
      { status := 200, body := "x", cacheControl := some "no-cache" }).1
      { bytes := "<html>hi</html>", modTime := 3 } rfl,
   (c6_amended_no_cache "/s" fsMain ["page.html"] none reqStale
      { status := 200, body := "x", cacheControl := some "no-cache" }).2.1
      (by decide),
   (c6_amended_no_cache "/s" fsMain ["page.html"] none reqStale
      { status := 200, body := "x", cacheControl := some "no-cache" }).2.2.1,
   (c6_amended_no_cache "/s" fsMain ["page.html"] none reqStale
      { status := 200, body := "x", cacheControl := some "no-cache" }).2.2.2
      { bytes := "<html>hi</html>", modTime := 3 } rfl⟩

/-- C9: each root handler reads the index document under the configured
static root and serves its bytes with an HTML content type, and a failed
read makes the handler return the error instead of a body. -/
theorem c9_root_serves_index (p : String) (fs : String → Option FileInfo) :
    (∀ fi, rootRead p fs = some fi →
      part000Root p fs =
        Except.ok { status := 200, body := fi.bytes,
                    cacheControl := some "no-cache",
                    contentType := some "text/html", backendRead := true }) ∧
    (∀ fi, rootRead p fs = some fi →
      mainGoRoot p fs =
        Except.ok { status := 200, body := fi.bytes,
                    cacheControl := none,
                    contentType := some "text/html",
                    backendRead := true }) ∧
    (rootRead p fs = none →
      part000Root p fs = Except.error "index read failed" ∧
      mainGoRoot p fs = Except.error "index read failed") := by
  refine ⟨?_, ?_, ?_⟩
  · intro fi hfi
    unfold part000Root
    rw [hfi]
  · intro fi hfi
    unfold mainGoRoot
    rw [hfi]
  · intro hn
    constructor
    · unfold part000Root
      rw [hn]
    · unfold mainGoRoot
      rw [hn]

/-- C9 witness: with the index page present both handlers serve its bytes
as HTML, and against an empty backend both handlers return the error. -/
theorem c9_witness :
    (part000Root "/s" fsMain =
      Except.ok { status := 200, body := "<html>hi</html>",
                  cacheControl := some "no-cache",
                  contentType := some "text/html", backendRead := true }) ∧
    (mainGoRoot "/s" fsMain =
      Except.ok { status := 200, body := "<html>hi</html>",
                  cacheControl := none,
                  contentType := some "text/html", backendRead := true }) ∧
    (part000Root "/s" fsEmpty = Except.error "index read failed" ∧
      mainGoRoot "/s" fsEmpty = Except.error "index read failed") :=
  ⟨(c9_root_serves_index "/s" fsMain).1
      { bytes := "<html>hi</html>", modTime := 3 } rfl,
   (c9_root_serves_index "/s" fsMain).2.1
      { bytes := "<html>hi</html>", modTime := 3 } rfl,
   (c9_root_serves_index "/s" fsEmpty).2.2 rfl⟩

end StaticSrv
